import Mathlib

/-!
Verification development for the Autoviva question-generation pipeline.

The repository has two generation paths:

* the topic path: `generateQuestionsFromText` in `src/lib/api/gemini.ts`
  (direct `JSON.parse`, bracket-span regex fallback) whose result is
  persisted by `handleGenerate` in `TopicGenerator.tsx`;
* the document path: `handleGenerateMCQs` in `DocumentUploader.tsx`
  (fetch of the Gemini endpoint, candidate navigation, `JSON.parse`,
  `Array.isArray` check, letter-to-index `findIndex` mapping).

JavaScript values coming out of `JSON.parse` are modelled by the
inductive `JsonVal`; `JSON.parse` itself (a platform builtin) is
modelled by the executable recursive-descent `parseJson` below,
restricted to integer numerals (fractional and exponent forms are not
needed by anything in this development and are mapped to a parse
failure).  The selection view `QuestionSelection` is modelled at the
end of the file.
-/

/-- A JavaScript JSON value as produced by `JSON.parse`. -/
inductive JsonVal where
  | null
  | bool (b : Bool)
  | num (n : Int)
  | str (s : String)
  | arr (elems : List JsonVal)
  | obj (fields : List (String × JsonVal))
deriving Repr

/-- Whitespace skipping of `JSON.parse` (space, tab, newline, carriage return). -/
def skipWs : List Char → List Char
  | c :: cs =>
      if c = ' ' ∨ c = '\t' ∨ c = '\n' ∨ c = '\r' then skipWs cs else c :: cs
  | [] => []

/-- Hexadecimal digit value, for `\u` escapes. -/
def hexVal (c : Char) : Option Nat :=
  if '0' ≤ c ∧ c ≤ '9' then some (c.toNat - 48)
  else if 'a' ≤ c ∧ c ≤ 'f' then some (c.toNat - 87)
  else if 'A' ≤ c ∧ c ≤ 'F' then some (c.toNat - 55)
  else none

/-- Body of a JSON string literal (after the opening quote), with the
standard escapes. -/
def parseStringLit : List Char → List Char → Option (String × List Char)
  | '"' :: rest, acc => some (String.mk acc.reverse, rest)
  | '\\' :: 'u' :: a :: b :: c :: d :: rest, acc =>
      match hexVal a, hexVal b, hexVal c, hexVal d with
      | some x, some y, some z, some w =>
          parseStringLit rest (Char.ofNat (((x * 16 + y) * 16 + z) * 16 + w) :: acc)
      | _, _, _, _ => none
  | '\\' :: e :: rest, acc =>
      if e = '"' then parseStringLit rest ('"' :: acc)
      else if e = '\\' then parseStringLit rest ('\\' :: acc)
      else if e = '/' then parseStringLit rest ('/' :: acc)
      else if e = 'n' then parseStringLit rest ('\n' :: acc)
      else if e = 't' then parseStringLit rest ('\t' :: acc)
      else if e = 'r' then parseStringLit rest ('\r' :: acc)
      else if e = 'b' then parseStringLit rest (Char.ofNat 8 :: acc)
      else if e = 'f' then parseStringLit rest (Char.ofNat 12 :: acc)
      else none
  | c :: rest, acc => parseStringLit rest (c :: acc)
  | [], _ => none

/-- Digits to a natural number. -/
def digitsToNat (ds : List Char) : Nat :=
  ds.foldl (fun a c => a * 10 + (c.toNat - 48)) 0

/-- Unsigned integer part of a JSON number; rejects leading zeros and the
fractional and exponent forms (not modelled). -/
def parseNatPart (cs : List Char) : Option (Nat × List Char) :=
  let p := cs.span (·.isDigit)
  match p.1 with
  | [] => none
  | d :: ds =>
      if d = '0' ∧ ds ≠ [] then none
      else
        match p.2 with
        | c :: _ =>
            if c = '.' ∨ c = 'e' ∨ c = 'E' then none
            else some (digitsToNat (d :: ds), p.2)
        | [] => some (digitsToNat (d :: ds), p.2)

/-- A JSON number (optionally negated integer). -/
def parseNum (cs : List Char) : Option (JsonVal × List Char) :=
  match cs with
  | '-' :: rest => (parseNatPart rest).map (fun p => (JsonVal.num (-(p.1 : Int)), p.2))
  | _ => (parseNatPart cs).map (fun p => (JsonVal.num (p.1 : Int), p.2))

mutual

/-- Fuel-indexed recursive-descent parse of one JSON value. -/
def parseVal : Nat → List Char → Option (JsonVal × List Char)
  | 0, _ => none
  | Nat.succ fuel, cs =>
      match skipWs cs with
      | [] => none
      | c :: rest =>
          if c = 'n' then
            match rest with
            | 'u' :: 'l' :: 'l' :: r => some (JsonVal.null, r)
            | _ => none
          else if c = 't' then
            match rest with
            | 'r' :: 'u' :: 'e' :: r => some (JsonVal.bool true, r)
            | _ => none
          else if c = 'f' then
            match rest with
            | 'a' :: 'l' :: 's' :: 'e' :: r => some (JsonVal.bool false, r)
            | _ => none
          else if c = '"' then
            (parseStringLit rest []).map (fun p => (JsonVal.str p.1, p.2))
          else if c = '[' then
            match skipWs rest with
            | ']' :: r => some (JsonVal.arr [], r)
            | cs2 => parseArrItems fuel cs2 []
          else if c = Char.ofNat 123 then
            match skipWs rest with
            | c2 :: r =>
                if c2 = Char.ofNat 125 then some (JsonVal.obj [], r)
                else parseObjItems fuel (c2 :: r) []
            | [] => none
          else if c = '-' ∨ c.isDigit then parseNum (c :: rest)
          else none

/-- Comma-separated array elements, after at least one element is known
to be present. -/
def parseArrItems : Nat → List Char → List JsonVal → Option (JsonVal × List Char)
  | 0, _, _ => none
  | Nat.succ fuel, cs, acc =>
      match parseVal fuel cs with
      | none => none
      | some (v, rest) =>
          match skipWs rest with
          | ',' :: r => parseArrItems fuel r (v :: acc)
          | ']' :: r => some (JsonVal.arr (acc.reverse ++ [v]), r)
          | _ => none

/-- Comma-separated object members, after at least one member is known
to be present. -/
def parseObjItems : Nat → List Char → List (String × JsonVal) →
    Option (JsonVal × List Char)
  | 0, _, _ => none
  | Nat.succ fuel, cs, acc =>
      match skipWs cs with
      | '"' :: r =>
          match parseStringLit r [] with
          | none => none
          | some (key, rest) =>
              match skipWs rest with
              | ':' :: r2 =>
                  match parseVal fuel r2 with
                  | none => none
                  | some (v, rest2) =>
                      match skipWs rest2 with
                      | ',' :: r3 => parseObjItems fuel r3 ((key, v) :: acc)
                      | c3 :: r3 =>
                          if c3 = Char.ofNat 125 then
                            some (JsonVal.obj (acc.reverse ++ [(key, v)]), r3)
                          else none
                      | [] => none
              | _ => none
      | _ => none

end

/-- Fuel bound large enough for any input of the given length. -/
def jsonFuel (s : String) : Nat := 2 * s.length + 2

/-- Model of the platform `JSON.parse`: parse one value and require only
trailing whitespace after it. -/
def parseJson (s : String) : Option JsonVal :=
  match parseVal (jsonFuel s) s.toList with
  | some (v, rest) => if skipWs rest = [] then some v else none
  | none => none

example : parseJson "42" = some (JsonVal.num 42) := by rfl
example : parseJson " [1, 2] " = some (JsonVal.arr [JsonVal.num 1, JsonVal.num 2]) := by rfl
example : parseJson "wat" = none := by rfl

/-- Errors thrown inside the two generation pipelines.  Every one of
them is converted to a generic toast at the UI boundary; the
constructors keep the distinct `throw` sites of the source apart. -/
inductive GenError where
  | missingApiKey
  | serviceError (status : Nat) (body : String)
  | invalidJsonBody
  | noCandidates
  | typeError
  | emptyContent
  | contentParseFailed
  | notQuestionArray
  | noJsonFound
  | extractedParseFailed
deriving DecidableEq, Repr

/-- Index of the first occurrence of a character. -/
def firstIdxOf (c : Char) (s : List Char) : Option Nat :=
  s.findIdx? (· == c)

/-- Index of the last occurrence of a character. -/
def lastIdxOf (c : Char) (s : List Char) : Option Nat :=
  match s.reverse.findIdx? (· == c) with
  | some k => some (s.length - 1 - k)
  | none => none

/-- Model of `responseText.match(/\[[\s\S]*\]/)` from
`generateQuestionsFromText`: the regex matches iff the first `[` of the
text is followed by a later `]`, and greediness makes the match run
from that first `[` to the last `]` of the whole text. -/
def extractBracketSpan (s : String) : Option String :=
  match firstIdxOf '[' s.toList, lastIdxOf ']' s.toList with
  | some i, some j =>
      if i < j then some (String.mk ((s.toList.drop i).take (j - i + 1)))
      else none
  | _, _ => none

example : extractBracketSpan "x [1] y [2] z" = some "[1] y [2]" := by rfl
example : extractBracketSpan "a ] b [ c" = none := by rfl

/-- The response-normalisation of `generateQuestionsFromText`: direct
`JSON.parse` first; on failure, parse the bracket span; a missing span
throws `Failed to parse generated questions`, and a parse failure on
the extracted span escapes to the outer catch.  No check that the
parsed value is an array is performed on this path. -/
def normalizeResponse (responseText : String) : Except GenError JsonVal :=
  match parseJson responseText with
  | some v => Except.ok v
  | none =>
      match extractBracketSpan responseText with
      | some sub =>
          match parseJson sub with
          | some v => Except.ok v
          | none => Except.error GenError.extractedParseFailed
      | none => Except.error GenError.noJsonFound

/-- The prompt template literal of `generateQuestionsFromText`, with
`count` and `text` interpolated at their two occurrences. -/
def topicPrompt (count : Nat) (text : String) : String :=
  "Generate " ++ toString count ++
  " multiple choice questions from the following topic. \n" ++
  "      Format each question as a JSON object with properties:\n" ++
  "      - text: the question text\n" ++
  "      - options: array of 4 possible answers\n" ++
  "      - correct_answer: index of correct answer (0-3)\n" ++
  "      - difficulty: \"easy\", \"medium\", or \"hard\"\n" ++
  "      \n" ++
  "      Topic: " ++ text ++ "\n" ++
  "      \n" ++
  "      Return ONLY a JSON array of questions with no additional text.\n" ++
  "      Example format:\n" ++
  "      [\n" ++
  "        \x7b\n" ++
  "          \"text\": \"What is the capital of France?\",\n" ++
  "          \"options\": [\"London\", \"Paris\", \"Berlin\", \"Madrid\"],\n" ++
  "          \"correct_answer\": 1,\n" ++
  "          \"difficulty\": \"easy\"\n" ++
  "        \x7d\n" ++
  "      ]"

/-- The topic-path generator of `src/lib/api/gemini.ts`, as a function
of the completion service's reply `responseText`: it sends
`topicPrompt count text` and returns the normalised reply, unvalidated.
(The outer catch collapses every failure into one generic error at the
boundary; the `GenError` value records the inner throw site.) -/
def generateQuestionsFromText (text : String) (count : Nat)
    (responseText : String) : String × Except GenError JsonVal :=
  (topicPrompt count text, normalizeResponse responseText)

/-- The document-path generator of `src/lib/api/gemini.ts`, a direct
delegation to `generateQuestionsFromText`. -/
def generateQuestionsFromDocument (documentText : String) (count : Nat)
    (responseText : String) : String × Except GenError JsonVal :=
  generateQuestionsFromText documentText count responseText

/-- JavaScript property read `v.name` on a defined value: a field of an
object, `undefined` (here `none`) on everything else. -/
def getField : JsonVal → String → Option JsonVal
  | JsonVal.obj fs, name => (fs.find? (fun p => p.1 == name)).map Prod.snd
  | _, _ => none

/-- JavaScript truthiness of a possibly-`undefined` value. -/
def jsTruthy : Option JsonVal → Bool
  | none => false
  | some JsonVal.null => false
  | some (JsonVal.bool b) => b
  | some (JsonVal.num n) => n != 0
  | some (JsonVal.str s) => s != ""
  | some (JsonVal.arr _) => true
  | some (JsonVal.obj _) => true

/-- JavaScript test `v.length === 0`, evaluated only on truthy values:
only arrays and strings have a numeric `length`; on anything else the
strict comparison with `0` is false. -/
def jsLengthIsZero : Option JsonVal → Bool
  | some (JsonVal.arr xs) => xs.isEmpty
  | some (JsonVal.str s) => s.isEmpty
  | _ => false

/-- JavaScript index read `v[0]` on a defined value. -/
def jsIndexZero : Option JsonVal → Option JsonVal
  | some (JsonVal.arr (x :: _)) => some x
  | some (JsonVal.str s) =>
      match s.toList with
      | c :: _ => some (JsonVal.str (String.mk [c]))
      | [] => none
  | some (JsonVal.obj fs) => (fs.find? (fun p => p.1 == "0")).map Prod.snd
  | _ => none

/-- JavaScript property read through a possibly-absent receiver:
reading a property of `undefined` or `null` throws a `TypeError`. -/
def propAccess (v : Option JsonVal) (name : String) :
    Except GenError (Option JsonVal) :=
  match v with
  | none => Except.error GenError.typeError
  | some JsonVal.null => Except.error GenError.typeError
  | some w => Except.ok (getField w name)

/-- JavaScript index read `v[0]` through a possibly-absent receiver. -/
def indexAccess (v : Option JsonVal) : Except GenError (Option JsonVal) :=
  match v with
  | none => Except.error GenError.typeError
  | some JsonVal.null => Except.error GenError.typeError
  | some w => Except.ok (jsIndexZero (some w))

/-- String coercion applied by `JSON.parse` to a non-string argument.
Non-empty arrays join their elements with commas in JavaScript; they
are approximated by the empty string here (nothing in this development
reaches that case). -/
def jsCoerceString : JsonVal → String
  | JsonVal.str s => s
  | JsonVal.num n => toString n
  | JsonVal.bool true => "true"
  | JsonVal.bool false => "false"
  | JsonVal.null => "null"
  | JsonVal.arr _ => ""
  | JsonVal.obj _ => "[object Object]"

/-- The option letter computed by `String.fromCharCode(65 + idx)`. -/
def letterOf (idx : Nat) : String := String.mk [Char.ofNat (65 + idx)]

/-- JavaScript strict equality `s === v` between a string literal and an
arbitrary (possibly `undefined`) value: true only for an equal string. -/
def strictEqStrJson (s : String) (v : Option JsonVal) : Bool :=
  match v with
  | some (JsonVal.str t) => s == t
  | _ => false

/-- JavaScript `Array.prototype.findIndex` with the element and its
index passed to the predicate; `-1` when nothing matches. -/
def findIndexFrom (p : JsonVal → Nat → Bool) : List JsonVal → Nat → Int
  | [], _ => -1
  | x :: xs, i => if p x i then Int.ofNat i else findIndexFrom p xs (i + 1)

/-- The Answer-Key Mapper of `handleGenerateMCQs`:
`q.options.findIndex((_opt, idx) => String.fromCharCode(65 + idx) === q.correct_answer)`.
The predicate ignores the option value and looks only at the position. -/
def answerLetterIndex (opts : List JsonVal) (ca : Option JsonVal) : Int :=
  findIndexFrom (fun _ idx => strictEqStrJson (letterOf idx) ca) opts 0

/-- JavaScript `v || d` for a possibly-`undefined` left operand. -/
def jsOrDefault (v : Option JsonVal) (d : JsonVal) : JsonVal :=
  match v with
  | some w => if jsTruthy (some w) then w else d
  | none => d

/-- One insertion request of the document path, as passed to
`addQuestion` by `handleGenerateMCQs`. -/
structure DocInsertRecord where
  text : Option JsonVal
  options : List JsonVal
  correct_answer : Int
  difficulty : JsonVal
  subject_id : String
  teacher_id : String
  marks : Nat
deriving Repr

/-- Construction of one document-path insertion request from a parsed
question value `q`.  Reading the fields of `null` throws, and calling
`findIndex` on a non-array `q.options` throws; otherwise every field is
read dynamically with no validation. -/
def buildDocInsert (subjectId teacherId : String) (q : JsonVal) :
    Except GenError DocInsertRecord :=
  match q with
  | JsonVal.null => Except.error GenError.typeError
  | _ =>
      match getField q "options" with
      | some (JsonVal.arr opts) =>
          Except.ok
            { text := getField q "text"
              options := opts
              correct_answer := answerLetterIndex opts (getField q "correct_answer")
              difficulty := jsOrDefault (getField q "difficulty") (JsonVal.str "medium")
              subject_id := subjectId
              teacher_id := teacherId
              marks := 1 }
      | _ => Except.error GenError.typeError

/-- The `questions.map(...)` + `Promise.all` step: build one insertion
request per question, the first throw aborting the aggregate. -/
def mapInsert {β : Type} (f : JsonVal → Except GenError β) :
    List JsonVal → Except GenError (List β)
  | [] => Except.ok []
  | q :: qs =>
      match f q with
      | Except.error e => Except.error e
      | Except.ok r =>
          match mapInsert f qs with
          | Except.error e => Except.error e
          | Except.ok rs => Except.ok (r :: rs)

/-- Whether a parsed value is a JSON array (`Array.isArray`). -/
def isArrJson : JsonVal → Bool
  | JsonVal.arr _ => true
  | _ => false

/-- The tail of `handleGenerateMCQs` from the generated content string
on: `JSON.parse` it, reject a non-array or empty-array result, then
build one insertion request per question. -/
def docContentToInserts (subjectId teacherId : String) (content : String) :
    Except GenError (List DocInsertRecord) :=
  match parseJson content with
  | none => Except.error GenError.contentParseFailed
  | some (JsonVal.arr []) => Except.error GenError.notQuestionArray
  | some (JsonVal.arr qs) => mapInsert (buildDocInsert subjectId teacherId) qs
  | some _ => Except.error GenError.notQuestionArray

/-- The `fetch` response consumed by `handleGenerateMCQs`. -/
structure FetchResponse where
  ok : Bool
  status : Nat
  body : String
deriving DecidableEq, Repr

/-- The document-path pipeline `handleGenerateMCQs` of
`DocumentUploader.tsx`, as a function of the API key and the fetch
response: missing/empty key throws; a non-`ok` response throws with the
status and body; then the JSON body is navigated to
`candidates[0].content.parts[0].text`, empty content throws, and the
content is parsed and persisted per question. -/
def handleGenerateMCQs (apiKey : Option String) (resp : FetchResponse)
    (subjectId teacherId : String) : Except GenError (List DocInsertRecord) :=
  match apiKey with
  | none => Except.error GenError.missingApiKey
  | some key =>
      if key = "" then Except.error GenError.missingApiKey
      else if resp.ok = false then
        Except.error (GenError.serviceError resp.status resp.body)
      else
        match parseJson resp.body with
        | none => Except.error GenError.invalidJsonBody
        | some data =>
            let cands := getField data "candidates"
            if jsTruthy cands = false then Except.error GenError.noCandidates
            else if jsLengthIsZero cands then Except.error GenError.noCandidates
            else
              match propAccess (jsIndexZero cands) "content" with
              | Except.error e => Except.error e
              | Except.ok contentF =>
                  match propAccess contentF "parts" with
                  | Except.error e => Except.error e
                  | Except.ok partsF =>
                      match indexAccess partsF with
                      | Except.error e => Except.error e
                      | Except.ok p0 =>
                          match propAccess p0 "text" with
                          | Except.error e => Except.error e
                          | Except.ok textF =>
                              if jsTruthy textF = false then
                                Except.error GenError.emptyContent
                              else
                                match textF with
                                | none => Except.error GenError.emptyContent
                                | some tv =>
                                    docContentToInserts subjectId teacherId
                                      (jsCoerceString tv)

/-- One insertion request of the topic path, as passed to `addQuestion`
by `handleGenerate` in `TopicGenerator.tsx`: the generated question's
fields are forwarded unchanged and unvalidated. -/
structure TopicInsertRecord where
  text : Option JsonVal
  options : Option JsonVal
  correct_answer : Option JsonVal
  difficulty : Option JsonVal
  subject_id : String
  teacher_id : String
  marks : Nat
deriving Repr

/-- Construction of one topic-path insertion request: a dynamic field
read of `text`, `options`, `correct_answer` and `difficulty` (throwing
only on a `null` element), with the ids and `marks: 1` attached. -/
def buildTopicInsert (subjectId teacherId : String) (q : JsonVal) :
    Except GenError TopicInsertRecord :=
  match q with
  | JsonVal.null => Except.error GenError.typeError
  | _ =>
      Except.ok
        { text := getField q "text"
          options := getField q "options"
          correct_answer := getField q "correct_answer"
          difficulty := getField q "difficulty"
          subject_id := subjectId
          teacher_id := teacherId
          marks := 1 }

/-- The topic-path pipeline `handleGenerate` of `TopicGenerator.tsx`:
normalise the service reply, then `questions.map(... addQuestion ...)`
(`map` throws on a non-array receiver), awaiting all insertions. -/
def handleGenerate (responseText : String) (subjectId teacherId : String) :
    Except GenError (List TopicInsertRecord) :=
  match normalizeResponse responseText with
  | Except.error e => Except.error e
  | Except.ok (JsonVal.arr qs) => mapInsert (buildTopicInsert subjectId teacherId) qs
  | Except.ok _ => Except.error GenError.typeError

/-- The insertion requests actually issued by a pipeline outcome: the
built list on success, none on a failure. -/
def issuedInserts {β : Type} (r : Except GenError (List β)) : List β :=
  match r with
  | Except.ok l => l
  | Except.error _ => []

/-- A persisted question as consumed by `QuestionSelection`
(`types/exam`): the fields the component reads. -/
structure Question where
  id : String
  text : String
  options : List String
  correct_answer : Int
  difficulty : String
  marks : Int
deriving DecidableEq, Repr

/-- The recomputation of the available set in `QuestionSelection`: a
`Set` of the selected ids is built and the pool is filtered to the
questions whose id is not in it.  `Set.has` on the id set is modelled
by `List.contains` on the list of ids. -/
def availableQuestions (questions selectedQuestions : List Question) :
    List Question :=
  questions.filter (fun q => !((selectedQuestions.map Question.id).contains q.id))

/-- C9: for every document text and count, `generateQuestionsFromDocument`
returns exactly the same result (same prompt, same outcome on the same
service reply) as `generateQuestionsFromText`: a pure delegation. -/
theorem c9_document_delegates (t : String) (n : Nat) (r : String) :
    generateQuestionsFromDocument t n r = generateQuestionsFromText t n r := rfl

/-- C2: the Response Normalizer attempts a direct parse first; on parse
failure it parses the first-to-last bracket span, returning exactly what
a direct parse of that unwrapped substring returns; when both attempts
fail the operation fails with an error. -/
theorem c2_normalizer_fallback (r : String) :
    (∀ v, parseJson r = some v → normalizeResponse r = Except.ok v) ∧
    (∀ u v, parseJson r = none → extractBracketSpan r = some u →
      parseJson u = some v → normalizeResponse r = Except.ok v) ∧
    (parseJson r = none →
      (∀ u, extractBracketSpan r = some u → parseJson u = none) →
      ∃ e, normalizeResponse r = Except.error e) := by
  refine ⟨?_, ?_, ?_⟩
  · intro v h
    simp [normalizeResponse, h]
  · intro u v h1 h2 h3
    simp [normalizeResponse, h1, h2, h3]
  · intro h1 h2
    cases he : extractBracketSpan r with
    | none =>
        exact ⟨GenError.noJsonFound, by simp [normalizeResponse, h1, he]⟩
    | some u =>
        exact ⟨GenError.extractedParseFailed,
          by simp [normalizeResponse, h1, he, h2 u he]⟩

/-- Witness for C2 on the prose-wrapped reply of the spec's scenario. -/
theorem c2_witness :
    (parseJson "Here are your questions: [1, 2] Enjoy." = none ∧
     extractBracketSpan "Here are your questions: [1, 2] Enjoy." = some "[1, 2]" ∧
     parseJson "[1, 2]" = some (JsonVal.arr [JsonVal.num 1, JsonVal.num 2])) ∧
    normalizeResponse "Here are your questions: [1, 2] Enjoy." =
      Except.ok (JsonVal.arr [JsonVal.num 1, JsonVal.num 2]) :=
  ⟨⟨rfl, rfl, rfl⟩,
   (c2_normalizer_fallback "Here are your questions: [1, 2] Enjoy.").2.1
     "[1, 2]" (JsonVal.arr [JsonVal.num 1, JsonVal.num 2]) rfl rfl rfl⟩

/-- Counterexample to C6 as stated: the topic-path normaliser of
`generateQuestionsFromText` performs no array check, so the non-array
reply `42` is returned as the question list instead of failing. -/
theorem c6_counterexample :
    normalizeResponse "42" = Except.ok (JsonVal.num 42) ∧
    isArrJson (JsonVal.num 42) = false :=
  ⟨rfl, rfl⟩

/-- C6 amended: the document-path normaliser rejects every parsed
non-array with its malformed-content error, while the topic-path
normaliser returns whatever the parse produced, with no array check. -/
theorem c6_amended_array_check :
    (∀ s t content v, parseJson content = some v → isArrJson v = false →
      docContentToInserts s t content = Except.error GenError.notQuestionArray) ∧
    (∀ r v, parseJson r = some v → normalizeResponse r = Except.ok v) := by
  constructor
  · intro s t content v h hv
    cases v <;> simp_all [docContentToInserts, isArrJson]
  · intro r v h
    simp [normalizeResponse, h]

/-- Witness for C6 amended at the non-array reply `42`. -/
theorem c6_witness :
    (parseJson "42" = some (JsonVal.num 42) ∧ isArrJson (JsonVal.num 42) = false) ∧
    docContentToInserts "S" "T" "42" = Except.error GenError.notQuestionArray :=
  ⟨⟨rfl, rfl⟩, c6_amended_array_check.1 "S" "T" "42" (JsonVal.num 42) rfl rfl⟩

/-- A generated question whose integer answer key 7 is out of range. -/
def qC1 : JsonVal :=
  JsonVal.obj
    [("text", JsonVal.str "Q"),
     ("options", JsonVal.arr
        [JsonVal.str "a", JsonVal.str "b", JsonVal.str "c", JsonVal.str "d"]),
     ("correct_answer", JsonVal.num 7),
     ("difficulty", JsonVal.str "easy")]

/-- Counterexample to C1 as stated: no range check exists on the topic
path, so the out-of-range integer answer key 7 is passed through to the
persistence insertion unchanged. -/
theorem c1_counterexample :
    buildTopicInsert "S1" "T1" qC1 = Except.ok
      { text := some (JsonVal.str "Q")
        options := some (JsonVal.arr
          [JsonVal.str "a", JsonVal.str "b", JsonVal.str "c", JsonVal.str "d"])
        correct_answer := some (JsonVal.num 7)
        difficulty := some (JsonVal.str "easy")
        subject_id := "S1"
        teacher_id := "T1"
        marks := 1 } ∧
    (3 : Int) < 7 :=
  ⟨rfl, by norm_num⟩

/-- C1 amended: an integer `correct_answer` is used directly as the
persisted zero-based index with no range check; integers outside 0-3
reach the persistence insertion unchanged. -/
theorem c1_amended_integer_passthrough (s t : String) (q : JsonVal) (n : Int)
    (hq : q ≠ JsonVal.null)
    (h : getField q "correct_answer" = some (JsonVal.num n)) :
    ∃ r, buildTopicInsert s t q = Except.ok r ∧
      r.correct_answer = some (JsonVal.num n) := by
  cases q with
  | null => exact absurd rfl hq
  | bool b => exact ⟨_, rfl, h⟩
  | num m => exact ⟨_, rfl, h⟩
  | str s => exact ⟨_, rfl, h⟩
  | arr xs => exact ⟨_, rfl, h⟩
  | obj fs => exact ⟨_, rfl, h⟩

/-- Witness for C1 amended at the out-of-range answer key 7. -/
theorem c1_witness :
    (qC1 ≠ JsonVal.null ∧ getField qC1 "correct_answer" = some (JsonVal.num 7)) ∧
    ∃ r, buildTopicInsert "S1" "T1" qC1 = Except.ok r ∧
      r.correct_answer = some (JsonVal.num 7) :=
  ⟨⟨fun h => JsonVal.noConfusion h, rfl⟩,
   c1_amended_integer_passthrough "S1" "T1" qC1 7
     (fun h => JsonVal.noConfusion h) rfl⟩

/-- The letter-matching search ignores the option values: two option
lists of equal length give the same `findIndex` result for any
position-only predicate. -/
theorem findIndexFrom_congr (p : Nat → Bool) :
    ∀ (xs ys : List JsonVal) (i : Nat), xs.length = ys.length →
      findIndexFrom (fun _ idx => p idx) xs i =
        findIndexFrom (fun _ idx => p idx) ys i := by
  intro xs
  induction xs with
  | nil =>
      intro ys i h
      cases ys with
      | nil => rfl
      | cons y ys => simp at h
  | cons x xs ih =>
      intro ys i h
      cases ys with
      | nil => simp at h
      | cons y ys =>
          simp only [List.length_cons, Nat.add_right_cancel_iff] at h
          simp only [findIndexFrom]
          by_cases hp : p i
          · simp [hp]
          · simp [hp, ih ys (i + 1) h]

/-- On a 4-element options list the Answer-Key Mapper is the positional
letter table. -/
theorem answerLetterIndex_four (a b c d : JsonVal) (ca : Option JsonVal) :
    answerLetterIndex [a, b, c, d] ca =
      if strictEqStrJson "A" ca then 0
      else if strictEqStrJson "B" ca then 1
      else if strictEqStrJson "C" ca then 2
      else if strictEqStrJson "D" ca then 3
      else -1 := rfl

/-- C3: for every answer letter in A-D and every 4-element options list
the Answer-Key Mapper returns the index labelled with that letter
(A to 0, B to 1, C to 2, D to 3), and the result is the same for every
other 4-element options list: the mapping is purely positional. -/
theorem c3_letter_mapping_positional (opts : List JsonVal) (L : String)
    (hlen : opts.length = 4) (hL : L ∈ ["A", "B", "C", "D"]) :
    ∃ i : Nat, answerLetterIndex opts (some (JsonVal.str L)) = Int.ofNat i ∧
      letterOf i = L ∧
      ∀ opts' : List JsonVal, opts'.length = 4 →
        answerLetterIndex opts' (some (JsonVal.str L)) =
          answerLetterIndex opts (some (JsonVal.str L)) := by
  have hcongr : ∀ opts' : List JsonVal, opts'.length = 4 →
      answerLetterIndex opts' (some (JsonVal.str L)) =
        answerLetterIndex opts (some (JsonVal.str L)) := by
    intro opts' h'
    unfold answerLetterIndex
    exact findIndexFrom_congr
      (fun idx => strictEqStrJson (letterOf idx) (some (JsonVal.str L)))
      opts' opts 0 (h'.trans hlen.symm)
  rcases opts with _ | ⟨a, _ | ⟨b, _ | ⟨c, _ | ⟨d, rest⟩⟩⟩⟩ <;> simp at hlen
  subst hlen
  simp only [List.mem_cons, List.not_mem_nil, or_false] at hL
  rcases hL with rfl | rfl | rfl | rfl
  · exact ⟨0, by rw [answerLetterIndex_four]; decide, rfl, hcongr⟩
  · exact ⟨1, by rw [answerLetterIndex_four]; decide, rfl, hcongr⟩
  · exact ⟨2, by rw [answerLetterIndex_four]; decide, rfl, hcongr⟩
  · exact ⟨3, by rw [answerLetterIndex_four]; decide, rfl, hcongr⟩

/-- The options of the spec's scenario for C3. -/
def optsEx : List JsonVal :=
  [JsonVal.str "x", JsonVal.str "y", JsonVal.str "z", JsonVal.str "w"]

/-- Witness for C3 on the spec's scenario: letter C with four options. -/
theorem c3_witness :
    (optsEx.length = 4 ∧ "C" ∈ ["A", "B", "C", "D"]) ∧
    ∃ i : Nat, answerLetterIndex optsEx (some (JsonVal.str "C")) = Int.ofNat i ∧
      letterOf i = "C" ∧
      ∀ opts' : List JsonVal, opts'.length = 4 →
        answerLetterIndex opts' (some (JsonVal.str "C")) =
          answerLetterIndex optsEx (some (JsonVal.str "C")) :=
  ⟨⟨rfl, by decide⟩, c3_letter_mapping_positional optsEx "C" rfl (by decide)⟩

/-- A `findIndex` whose position-only predicate rejects every index of
the list returns the sentinel `-1`. -/
theorem findIndexFrom_eq_neg (ca : Option JsonVal) :
    ∀ (xs : List JsonVal) (i : Nat),
      (∀ k, k < xs.length → strictEqStrJson (letterOf (i + k)) ca = false) →
      findIndexFrom (fun _ idx => strictEqStrJson (letterOf idx) ca) xs i = -1 := by
  intro xs
  induction xs with
  | nil => intro i h; rfl
  | cons x xs ih =>
      intro i h
      have h0 : strictEqStrJson (letterOf i) ca = false := by
        simpa using h 0 (by simp)
      simp only [findIndexFrom, h0, Bool.false_eq_true, if_false]
      apply ih
      intro k hk
      have hk1 : k + 1 < (x :: xs).length := by simpa using Nat.succ_lt_succ hk
      have := h (k + 1) hk1
      rwa [show i + 1 + k = i + (k + 1) by omega]

/-- C4: an answer letter matching no option position yields the sentinel
index `-1` instead of a failure, and that `-1` is the index carried by
the persistence insertion request. -/
theorem c4_sentinel_negative_one (s t : String) (q : JsonVal)
    (opts : List JsonVal) (hq : q ≠ JsonVal.null)
    (hopts : getField q "options" = some (JsonVal.arr opts))
    (hno : ∀ k, k < opts.length →
      strictEqStrJson (letterOf k) (getField q "correct_answer") = false) :
    ∃ r, buildDocInsert s t q = Except.ok r ∧ r.correct_answer = -1 := by
  have hidx : answerLetterIndex opts (getField q "correct_answer") = -1 := by
    unfold answerLetterIndex
    exact findIndexFrom_eq_neg _ opts 0 (fun k hk => by simpa using hno k hk)
  cases q with
  | null => exact absurd rfl hq
  | bool b => simp [getField] at hopts
  | num n => simp [getField] at hopts
  | str s' => simp [getField] at hopts
  | arr xs => simp [getField] at hopts
  | obj fs =>
      refine ⟨{ text := getField (JsonVal.obj fs) "text"
                options := opts
                correct_answer :=
                  answerLetterIndex opts (getField (JsonVal.obj fs) "correct_answer")
                difficulty :=
                  jsOrDefault (getField (JsonVal.obj fs) "difficulty")
                    (JsonVal.str "medium")
                subject_id := s
                teacher_id := t
                marks := 1 }, ?_, ?_⟩
      · simp [buildDocInsert, hopts]
      · exact hidx

/-- A generated question whose answer letter E matches no option. -/
def qC4 : JsonVal :=
  JsonVal.obj
    [("text", JsonVal.str "Q"),
     ("options", JsonVal.arr
        [JsonVal.str "p", JsonVal.str "q", JsonVal.str "r", JsonVal.str "s"]),
     ("correct_answer", JsonVal.str "E"),
     ("difficulty", JsonVal.str "hard")]

/-- Witness for C4 at the unmatched letter E with four options. -/
theorem c4_witness :
    (qC4 ≠ JsonVal.null ∧
     getField qC4 "options" = some (JsonVal.arr
       [JsonVal.str "p", JsonVal.str "q", JsonVal.str "r", JsonVal.str "s"]) ∧
     ∀ k, k < 4 →
       strictEqStrJson (letterOf k) (getField qC4 "correct_answer") = false) ∧
    ∃ r, buildDocInsert "S4" "T4" qC4 = Except.ok r ∧ r.correct_answer = -1 :=
  ⟨⟨fun h => JsonVal.noConfusion h, rfl, by decide⟩,
   c4_sentinel_negative_one "S4" "T4" qC4
     [JsonVal.str "p", JsonVal.str "q", JsonVal.str "r", JsonVal.str "s"]
     (fun h => JsonVal.noConfusion h) rfl (by decide)⟩

/-- C10: on the document path a missing or empty difficulty is persisted
as `medium`, and a present non-empty difficulty string is persisted
unchanged. -/
theorem c10_difficulty_default (s t : String) (q : JsonVal)
    (opts : List JsonVal) (hq : q ≠ JsonVal.null)
    (hopts : getField q "options" = some (JsonVal.arr opts)) :
    ((getField q "difficulty" = none ∨
        getField q "difficulty" = some (JsonVal.str "")) →
      ∃ r, buildDocInsert s t q = Except.ok r ∧
        r.difficulty = JsonVal.str "medium") ∧
    (∀ d, d ≠ "" → getField q "difficulty" = some (JsonVal.str d) →
      ∃ r, buildDocInsert s t q = Except.ok r ∧ r.difficulty = JsonVal.str d) := by
  cases q with
  | null => exact absurd rfl hq
  | bool b => simp [getField] at hopts
  | num n => simp [getField] at hopts
  | str s' => simp [getField] at hopts
  | arr xs => simp [getField] at hopts
  | obj fs =>
      constructor
      · intro hd
        refine ⟨{ text := getField (JsonVal.obj fs) "text"
                  options := opts
                  correct_answer :=
                    answerLetterIndex opts (getField (JsonVal.obj fs) "correct_answer")
                  difficulty :=
                    jsOrDefault (getField (JsonVal.obj fs) "difficulty")
                      (JsonVal.str "medium")
                  subject_id := s
                  teacher_id := t
                  marks := 1 }, by simp [buildDocInsert, hopts], ?_⟩
        rcases hd with hd | hd <;> simp [jsOrDefault, hd, jsTruthy]
      · intro d hd hgf
        refine ⟨{ text := getField (JsonVal.obj fs) "text"
                  options := opts
                  correct_answer :=
                    answerLetterIndex opts (getField (JsonVal.obj fs) "correct_answer")
                  difficulty :=
                    jsOrDefault (getField (JsonVal.obj fs) "difficulty")
                      (JsonVal.str "medium")
                  subject_id := s
                  teacher_id := t
                  marks := 1 }, by simp [buildDocInsert, hopts], ?_⟩
        simp [jsOrDefault, hgf, jsTruthy, bne_iff_ne, hd]

/-- A generated question with no difficulty field. -/
def qC10 : JsonVal :=
  JsonVal.obj
    [("text", JsonVal.str "Q"),
     ("options", JsonVal.arr
        [JsonVal.str "a", JsonVal.str "b", JsonVal.str "c", JsonVal.str "d"]),
     ("correct_answer", JsonVal.str "A")]

/-- Witness for C10 at a question whose difficulty field is absent. -/
theorem c10_witness :
    (qC10 ≠ JsonVal.null ∧
     getField qC10 "options" = some (JsonVal.arr
       [JsonVal.str "a", JsonVal.str "b", JsonVal.str "c", JsonVal.str "d"]) ∧
     getField qC10 "difficulty" = none) ∧
    ∃ r, buildDocInsert "S0" "T0" qC10 = Except.ok r ∧
      r.difficulty = JsonVal.str "medium" :=
  ⟨⟨fun h => JsonVal.noConfusion h, rfl, rfl⟩,
   (c10_difficulty_default "S0" "T0" qC10
     [JsonVal.str "a", JsonVal.str "b", JsonVal.str "c", JsonVal.str "d"]
     (fun h => JsonVal.noConfusion h) rfl).1 (Or.inl rfl)⟩

/-- C7: a non-success HTTP status makes the document pipeline fail with
the service error carrying the status and body, and no persistence
insertion is issued. -/
theorem c7_service_error_no_insert (key : String) (resp : FetchResponse)
    (s t : String) (hkey : key ≠ "") (hok : resp.ok = false) :
    handleGenerateMCQs (some key) resp s t =
      Except.error (GenError.serviceError resp.status resp.body) ∧
    issuedInserts (handleGenerateMCQs (some key) resp s t) = [] := by
  have h : handleGenerateMCQs (some key) resp s t =
      Except.error (GenError.serviceError resp.status resp.body) := by
    simp [handleGenerateMCQs, hkey, hok]
  exact ⟨h, by rw [h]; rfl⟩

/-- Witness for C7 on an HTTP 500 response. -/
theorem c7_witness :
    ("k" ≠ "" ∧ (FetchResponse.mk false 500 "boom").ok = false) ∧
    (handleGenerateMCQs (some "k") (FetchResponse.mk false 500 "boom") "S" "T" =
       Except.error (GenError.serviceError 500 "boom") ∧
     issuedInserts
       (handleGenerateMCQs (some "k") (FetchResponse.mk false 500 "boom") "S" "T") =
       []) :=
  ⟨⟨by decide, rfl⟩,
   c7_service_error_no_insert "k" (FetchResponse.mk false 500 "boom") "S" "T"
     (by decide) rfl⟩

/-- A successful batch build yields one record per question. -/
theorem mapInsert_length {β : Type} (f : JsonVal → Except GenError β) :
    ∀ qs l, mapInsert f qs = Except.ok l → l.length = qs.length := by
  intro qs
  induction qs with
  | nil =>
      intro l h
      simp only [mapInsert] at h
      injection h with h'
      rw [← h']
      rfl
  | cons q qs ih =>
      intro l h
      simp only [mapInsert] at h
      cases hf : f q with
      | error e => rw [hf] at h; exact Except.noConfusion h
      | ok r =>
          rw [hf] at h
          cases hrest : mapInsert f qs with
          | error e => rw [hrest] at h; exact Except.noConfusion h
          | ok rs =>
              rw [hrest] at h
              injection h with h'
              rw [← h']
              simp [ih rs hrest]

/-- Every record of a successful batch build comes from one question. -/
theorem mapInsert_mem {β : Type} (f : JsonVal → Except GenError β) :
    ∀ qs l, mapInsert f qs = Except.ok l →
      ∀ r ∈ l, ∃ q ∈ qs, f q = Except.ok r := by
  intro qs
  induction qs with
  | nil =>
      intro l h r hr
      simp only [mapInsert] at h
      injection h with h'
      rw [← h'] at hr
      simp at hr
  | cons q qs ih =>
      intro l h r hr
      simp only [mapInsert] at h
      cases hf : f q with
      | error e => rw [hf] at h; exact Except.noConfusion h
      | ok r0 =>
          rw [hf] at h
          cases hrest : mapInsert f qs with
          | error e => rw [hrest] at h; exact Except.noConfusion h
          | ok rs =>
              rw [hrest] at h
              injection h with h'
              rw [← h'] at hr
              rcases List.mem_cons.mp hr with rfl | hr'
              · exact ⟨q, List.mem_cons_self q qs, hf⟩
              · obtain ⟨q', hq', hfq'⟩ := ih rs hrest r hr'
                exact ⟨q', List.mem_cons_of_mem q hq', hfq'⟩

/-- A topic-path insertion request always carries the caller's ids and
the default mark. -/
theorem buildTopicInsert_fields (s t : String) (q : JsonVal)
    (r : TopicInsertRecord) (h : buildTopicInsert s t q = Except.ok r) :
    r.subject_id = s ∧ r.teacher_id = t ∧ r.marks = 1 := by
  cases q with
  | null => exact Except.noConfusion h
  | bool b => injection h with h'; rw [← h']; exact ⟨rfl, rfl, rfl⟩
  | num n => injection h with h'; rw [← h']; exact ⟨rfl, rfl, rfl⟩
  | str s' => injection h with h'; rw [← h']; exact ⟨rfl, rfl, rfl⟩
  | arr xs => injection h with h'; rw [← h']; exact ⟨rfl, rfl, rfl⟩
  | obj fs => injection h with h'; rw [← h']; exact ⟨rfl, rfl, rfl⟩

/-- A document-path insertion request always carries the caller's ids
and the default mark. -/
theorem buildDocInsert_fields (s t : String) (q : JsonVal)
    (r : DocInsertRecord) (h : buildDocInsert s t q = Except.ok r) :
    r.subject_id = s ∧ r.teacher_id = t ∧ r.marks = 1 := by
  unfold buildDocInsert at h
  split at h
  · exact Except.noConfusion h
  · split at h
    · injection h with h'; rw [← h']; exact ⟨rfl, rfl, rfl⟩
    · exact Except.noConfusion h

/-- C8: a successful generation issues exactly one persistence insertion
per question, on either path, and every insertion carries the caller's
`subject_id` and `teacher_id` and the default `marks` of 1. -/
theorem c8_one_insert_per_question :
    (∀ (s t : String) (qs : List JsonVal) (l : List TopicInsertRecord),
      mapInsert (buildTopicInsert s t) qs = Except.ok l →
      l.length = qs.length ∧
        ∀ r ∈ l, r.subject_id = s ∧ r.teacher_id = t ∧ r.marks = 1) ∧
    (∀ (s t : String) (qs : List JsonVal) (l : List DocInsertRecord),
      mapInsert (buildDocInsert s t) qs = Except.ok l →
      l.length = qs.length ∧
        ∀ r ∈ l, r.subject_id = s ∧ r.teacher_id = t ∧ r.marks = 1) := by
  constructor
  · intro s t qs l h
    refine ⟨mapInsert_length _ qs l h, ?_⟩
    intro r hr
    obtain ⟨q, _, hq⟩ := mapInsert_mem _ qs l h r hr
    exact buildTopicInsert_fields s t q r hq
  · intro s t qs l h
    refine ⟨mapInsert_length _ qs l h, ?_⟩
    intro r hr
    obtain ⟨q, _, hq⟩ := mapInsert_mem _ qs l h r hr
    exact buildDocInsert_fields s t q r hq

/-- A well-formed generated question for the C8 witness. -/
def qC8 : JsonVal :=
  JsonVal.obj
    [("text", JsonVal.str "Q"),
     ("options", JsonVal.arr
        [JsonVal.str "a", JsonVal.str "b", JsonVal.str "c", JsonVal.str "d"]),
     ("correct_answer", JsonVal.str "B"),
     ("difficulty", JsonVal.str "easy")]

/-- The topic-path insertion request built from `qC8`. -/
def c8recs : List TopicInsertRecord :=
  [{ text := some (JsonVal.str "Q")
     options := some (JsonVal.arr
       [JsonVal.str "a", JsonVal.str "b", JsonVal.str "c", JsonVal.str "d"])
     correct_answer := some (JsonVal.str "B")
     difficulty := some (JsonVal.str "easy")
     subject_id := "S8"
     teacher_id := "T8"
     marks := 1 }]

/-- Witness for C8: one well-formed question yields exactly one
insertion with the ids and default mark attached. -/
theorem c8_witness :
    mapInsert (buildTopicInsert "S8" "T8") [qC8] = Except.ok c8recs ∧
    (c8recs.length = [qC8].length ∧
      ∀ r ∈ c8recs, r.subject_id = "S8" ∧ r.teacher_id = "T8" ∧ r.marks = 1) :=
  ⟨rfl, c8_one_insert_per_question.1 "S8" "T8" [qC8] c8recs rfl⟩

/-- C5: after every recomputation the available set is the complement of
the selected set within the pool: nothing selected appears in it, the
selected and available ids together are exactly the pool's ids, and the
result depends on the selected questions only through their ids. -/
theorem c5_partition_invariant (pool selected : List Question)
    (hsub : ∀ q ∈ selected, q.id ∈ pool.map Question.id) :
    (∀ q ∈ availableQuestions pool selected,
       q.id ∉ selected.map Question.id) ∧
    (∀ i, i ∈ pool.map Question.id ↔
       (i ∈ selected.map Question.id ∨
        i ∈ (availableQuestions pool selected).map Question.id)) ∧
    (∀ selected' : List Question,
       selected.map Question.id = selected'.map Question.id →
       availableQuestions pool selected = availableQuestions pool selected') := by
  refine ⟨?_, ?_, ?_⟩
  · intro q hq
    simp only [availableQuestions, List.mem_filter] at hq
    simpa using hq.2
  · intro i
    constructor
    · intro hi
      rcases List.mem_map.mp hi with ⟨q, hq, rfl⟩
      by_cases hs : q.id ∈ selected.map Question.id
      · exact Or.inl hs
      · refine Or.inr (List.mem_map.mpr ⟨q, ?_, rfl⟩)
        simp only [availableQuestions, List.mem_filter]
        exact ⟨hq, by simpa using hs⟩
    · intro hi
      rcases hi with hi | hi
      · rcases List.mem_map.mp hi with ⟨q, hq, rfl⟩
        exact hsub q hq
      · rcases List.mem_map.mp hi with ⟨q, hq, rfl⟩
        simp only [availableQuestions, List.mem_filter] at hq
        exact List.mem_map.mpr ⟨q, hq.1, rfl⟩
  · intro selected' h
    simp only [availableQuestions, h]

/-- Two pool questions for the C5 witness. -/
def q5a : Question :=
  { id := "1", text := "alpha", options := ["a", "b", "c", "d"],
    correct_answer := 0, difficulty := "easy", marks := 1 }

/-- Second pool question for the C5 witness. -/
def q5b : Question :=
  { id := "2", text := "beta", options := ["a", "b", "c", "d"],
    correct_answer := 1, difficulty := "hard", marks := 1 }

/-- A selected copy of `q5a` differing in content but not in id, to
exercise id-only membership. -/
def q5a' : Question :=
  { id := "1", text := "alpha edited", options := ["a", "b", "c", "d"],
    correct_answer := 0, difficulty := "easy", marks := 2 }

/-- Witness for C5 on a two-question pool with one selected copy. -/
theorem c5_witness :
    (∀ q ∈ [q5a'], q.id ∈ ([q5a, q5b].map Question.id)) ∧
    ((∀ q ∈ availableQuestions [q5a, q5b] [q5a'],
        q.id ∉ [q5a'].map Question.id) ∧
     (∀ i, i ∈ [q5a, q5b].map Question.id ↔
        (i ∈ [q5a'].map Question.id ∨
         i ∈ (availableQuestions [q5a, q5b] [q5a']).map Question.id)) ∧
     (∀ selected' : List Question,
        [q5a'].map Question.id = selected'.map Question.id →
        availableQuestions [q5a, q5b] [q5a'] =
          availableQuestions [q5a, q5b] selected')) :=
  ⟨by decide, c5_partition_invariant [q5a, q5b] [q5a'] (by decide)⟩
